import Mathlib

/-!
Verification of the entity-search cache/label-resolution layer of this
repository: the creatable-value codec, the synchronous label lookup, the
search-result cache writes, the reactive multi-label resolver, the
create-affordance visibility rule, the multi-select value cap, and the
debounced query controller.

The definitions below are shallow embeddings of the TypeScript source
(`src/tanstack-form-research/v4/index.ts`,
`src/tanstack-form-research/v4/select-fields.tsx` — the multi-search field
half of that file — and `src/unnamed/part_010`, the single-search field
file).  JavaScript strings are modelled as Lean `String` (`List Char`),
with the relevant `String.prototype` operations re-implemented
per-character.  The TanStack Query cache is modelled as a pair of
association lists keyed by the exact query keys the source uses:
`[entityKey, "search", query]` for result lists and `[entityKey, id]` for
individual entities; `setQueryData` prepends and lookup takes the first
match, which realises its overwrite semantics.  The integrator's
asynchronous `searchFn` is an oracle argument (`Except Unit (List E)`),
and search-call counting is explicit state, so that "exactly one call" /
"no retry" facts are provable.
-/

namespace EntitySearch

/-! ### JavaScript string primitives

The source operates on JS strings with `startsWith`, `slice`,
`toLowerCase` and `length`.  The entities involved are plain identifier
strings, so the per-character model below matches the JS behaviour on the
value space the code uses. -/

/-- JS `String.prototype.startsWith`: character-wise prefix test. -/
def jsStartsWith (s p : String) : Bool :=
  p.data.isPrefixOf s.data

/-- JS `String.prototype.slice(n)`: drop the first `n` characters. -/
def jsSlice (s : String) (n : Nat) : String :=
  String.mk (s.data.drop n)

/-- JS `String.prototype.toLowerCase`, per character. -/
def jsToLower (s : String) : String :=
  String.mk (s.data.map Char.toLower)

/-! ### Creatable value codec

Translated from `src/tanstack-form-research/v4/index.ts` lines 62-77.
The source constant is `CREATED_PREFIX`; it is named `createdMarker`
here. -/

/-- The reserved marker prepended to not-yet-persisted names
(`CREATED_PREFIX` in the source). -/
def createdMarker : String := "__new:"

/-- Check if a field value represents a newly created (not-yet-persisted)
entry.  Source: `value != null && value.startsWith(CREATED_PREFIX)`. -/
def isCreatedValue (value : Option String) : Bool :=
  match value with
  | none => false
  | some v => jsStartsWith v createdMarker

/-- Extract the display name from a created-sentinel value.
Source: `value.slice(CREATED_PREFIX.length)`. -/
def parseCreatedName (value : String) : String :=
  jsSlice value createdMarker.length

/-- Create a created-sentinel value from a user-typed name.
Source: `` `${CREATED_PREFIX}${name}` ``. -/
def makeCreatedValue (name : String) : String :=
  createdMarker ++ name

theorem parseCreatedName_makeCreatedValue (s : String) :
    parseCreatedName (makeCreatedValue s) = s := by
  have hdata : (makeCreatedValue s).data = createdMarker.data ++ s.data := by
    simp [makeCreatedValue, String.data_append]
  have hlen : createdMarker.length = createdMarker.data.length := rfl
  simp only [parseCreatedName, jsSlice, hdata, hlen, List.drop_left]

theorem isCreatedValue_makeCreatedValue (s : String) :
    isCreatedValue (some (makeCreatedValue s)) = true := by
  have hdata : (makeCreatedValue s).data = createdMarker.data ++ s.data := by
    simp [makeCreatedValue, String.data_append]
  simp [isCreatedValue, jsStartsWith, hdata, List.isPrefixOf_iff_prefix]

/-- C4: for all non-empty strings `s` not containing the reserved marker,
decoding the pending encoding of `s` yields `s` back and
`isCreatedValue` recognises the encoding; and any id string that does not
start with the reserved `"__new:"` marker is not classified as created.
(The round trip in fact holds for every string; the claim's hypotheses
delimit the integrator contract.) -/
theorem created_value_codec_round_trip (s : String)
    (hne : s ≠ "") (hmarker : ¬ createdMarker.data <:+: s.data) :
    parseCreatedName (makeCreatedValue s) = s
    ∧ isCreatedValue (some (makeCreatedValue s)) = true
    ∧ ∀ id : String, jsStartsWith id createdMarker = false →
        isCreatedValue (some id) = false := by
  refine ⟨parseCreatedName_makeCreatedValue s,
          isCreatedValue_makeCreatedValue s, ?_⟩
  intro id hid
  simpa [isCreatedValue] using hid

/-- Instantiation of `created_value_codec_round_trip` at the concrete name
`"NewCo"` and the concrete persisted id `"c42"`. -/
theorem created_value_codec_round_trip_check :
    parseCreatedName (makeCreatedValue "NewCo") = "NewCo"
    ∧ isCreatedValue (some (makeCreatedValue "NewCo")) = true
    ∧ isCreatedValue (some "c42") = false := by
  have h := created_value_codec_round_trip "NewCo" (by decide) (by decide)
  exact ⟨h.1, h.2.1, h.2.2 "c42" (by decide)⟩

/-! ### The query cache

`@/form-fields/types` defines `ComboboxOption` (`src/unnamed/part_009`).
The TanStack Query cache stores `ComboboxOption` values under
`[entityKey, "search", query]` (result lists) and `[entityKey, id]`
(individual entities).  `setQueryData` overwrites unconditionally; the
association lists below prepend on write and take the first match on
read, so the newest write wins. -/

/-- Standard option shape for combobox/select components
(`form-fields/types.ts`). -/
structure ComboboxOption where
  value : String
  label : String
  description : Option String := none
deriving DecidableEq

/-- First-match lookup in an association list keyed by
`(entityKey, discriminator)` pairs. -/
def lookupPairs {β : Type} (k : String × String) :
    List ((String × String) × β) → Option β
  | [] => none
  | (k', v) :: rest => if k' = k then some v else lookupPairs k rest

/-- The shared query cache: search-result entries and individual entity
entries, in last-write-wins order. -/
structure Cache where
  searchEntries : List ((String × String) × List ComboboxOption)
  entityEntries : List ((String × String) × ComboboxOption)
deriving DecidableEq

/-- The cache at application start: empty. -/
def emptyCache : Cache := ⟨[], []⟩

/-- Read the `[entityKey, "search", query]` slot. -/
def lookupSearchData (c : Cache) (ns q : String) : Option (List ComboboxOption) :=
  lookupPairs (ns, q) c.searchEntries

/-- Read the `[entityKey, id]` slot. -/
def lookupEntityData (c : Cache) (ns id : String) : Option ComboboxOption :=
  lookupPairs (ns, id) c.entityEntries

/-- Model of `queryClient.setQueryData([entityKey, "search", query], options)`. -/
def setSearchData (c : Cache) (ns q : String) (os : List ComboboxOption) : Cache :=
  { c with searchEntries := ((ns, q), os) :: c.searchEntries }

/-- Model of `queryClient.setQueryData([entityKey, id], option)`. -/
def setEntityData (c : Cache) (ns id : String) (o : ComboboxOption) : Cache :=
  { c with entityEntries := ((ns, id), o) :: c.entityEntries }

theorem lookupPairs_cons {β : Type} (k k' : String × String) (v : β)
    (rest : List ((String × String) × β)) :
    lookupPairs k ((k', v) :: rest)
      = if k' = k then some v else lookupPairs k rest := rfl

theorem lookupSearchData_setEntityData (c : Cache) (ns id ns' q' : String)
    (o : ComboboxOption) :
    lookupSearchData (setEntityData c ns id o) ns' q'
      = lookupSearchData c ns' q' := rfl

theorem lookupSearchData_setSearchData (c : Cache) (ns q ns' q' : String)
    (os : List ComboboxOption) :
    lookupSearchData (setSearchData c ns q os) ns' q'
      = if (ns, q) = (ns', q') then some os else lookupSearchData c ns' q' := rfl

theorem lookupEntityData_setEntityData (c : Cache) (ns id ns' id' : String)
    (o : ComboboxOption) :
    lookupEntityData (setEntityData c ns id o) ns' id'
      = if (ns, id) = (ns', id') then some o else lookupEntityData c ns' id' := rfl

/-! ### Synchronous label lookup

Translated from `src/tanstack-form-research/v4/index.ts` lines 164-172.
The JS guard `if (!id) return ""` is true both for `null` and for the
empty string, so the model checks both. -/

/-- Synchronous label lookup.  Decodes created sentinels inline; falls
back to the raw id on a cache miss.  Never fails, never fetches. -/
def getLabel (c : Cache) (ns : String) (id : Option String) : String :=
  match id with
  | none => ""
  | some s =>
    if s = "" then ""
    else if isCreatedValue (some s) then parseCreatedName s
    else
      match lookupEntityData c ns s with
      | some cached => cached.label
      | none => s

/-- C3: `getLabel` is total and synchronous: it returns `""` for a
null/absent id; for a created sentinel it returns the decoded embedded
name, independently of the cache contents; for a cached id it returns
the cached label; and on a cache miss it returns the raw id itself.
Totality (never throws, never blocks) is inherent in the type: `getLabel`
is a pure function of the cache and the id. -/
theorem getLabel_total_spec (c : Cache) (ns : String) :
    getLabel c ns none = ""
    ∧ (∀ v, isCreatedValue (some v) = true →
        ∀ c' : Cache, getLabel c' ns (some v) = parseCreatedName v)
    ∧ (∀ id o, id ≠ "" → isCreatedValue (some id) = false →
        lookupEntityData c ns id = some o →
        getLabel c ns (some id) = o.label)
    ∧ (∀ id, isCreatedValue (some id) = false →
        lookupEntityData c ns id = none →
        getLabel c ns (some id) = id) := by
  refine ⟨rfl, ?_, ?_, ?_⟩
  · intro v hv c'
    have hvne : v ≠ "" := by
      intro h
      subst h
      simp [isCreatedValue, jsStartsWith, createdMarker, List.isPrefixOf] at hv
    simp [getLabel, hvne, hv]
  · intro id o hne hnc hlook
    simp [getLabel, hne, hnc, hlook]
  · intro id hnc hlook
    by_cases hid : id = ""
    · subst hid; simp [getLabel]
    · simp [getLabel, hid, hnc, hlook]

/-- Instantiation of `getLabel_total_spec`: with `("companies","c1")`
cached as Acme Corp, `getLabel` returns `""` for an absent id, decodes
`"__new:NewCo"` without the cache, reads the cached label for `"c1"`,
and falls back to the raw id `"zz"` on a miss. -/
theorem getLabel_total_spec_check :
    getLabel (setEntityData emptyCache "companies" "c1" ⟨"c1", "Acme Corp", none⟩)
        "companies" none = ""
    ∧ getLabel emptyCache "companies" (some "__new:NewCo") = "NewCo"
    ∧ getLabel (setEntityData emptyCache "companies" "c1" ⟨"c1", "Acme Corp", none⟩)
        "companies" (some "c1") = "Acme Corp"
    ∧ getLabel (setEntityData emptyCache "companies" "c1" ⟨"c1", "Acme Corp", none⟩)
        "companies" (some "zz") = "zz" := by
  have h1 := getLabel_total_spec
      (setEntityData emptyCache "companies" "c1" ⟨"c1", "Acme Corp", none⟩) "companies"
  have h2 := getLabel_total_spec emptyCache "companies"
  refine ⟨h1.1, ?_, ?_, ?_⟩
  · have := h2.2.1 "__new:NewCo" (by decide) emptyCache
    simpa using this
  · have := h1.2.2.1 "c1" ⟨"c1", "Acme Corp", none⟩ (by decide) (by decide) (by decide)
    simpa using this
  · exact h1.2.2.2 "zz" (by decide) (by decide)

/-! ### The search query

Translated from `src/tanstack-form-research/v4/index.ts` lines 138-156:
the `useQuery` call whose `queryKey` is `[entityKey, "search",
debouncedSearch]` and whose `queryFn` runs the integrator's `searchFn`,
maps the results through `toOption`, writes every mapped option into
`[entityKey, option.value]`, and returns the mapped list, which the query
framework then stores under the search key.  The integrator's
asynchronous call is passed in as an oracle `Except Unit (List E)`
(`Except.error` models a rejected promise).  `searchCalls` counts
`searchFn` dispatches. -/

/-- Service state: the shared cache plus the number of `searchFn`
dispatches performed so far. -/
structure SvcState where
  cache : Cache
  searchCalls : Nat
deriving DecidableEq

/-- The body of the `queryFn`: map the entities through `toOption`, seed
each mapped option into its individual entity slot, and return the
mapped list. -/
def runQueryFn {E : Type} (ns : String) (toOption : E → ComboboxOption)
    (entities : List E) (c : Cache) : Cache × List ComboboxOption :=
  let mapped := entities.map toOption
  (mapped.foldl (fun acc o => setEntityData acc ns o.value o) c, mapped)

/-- One completed search attempt for query `q`.  A fresh cached result
short-circuits (no dispatch).  On a miss the integrator is called once:
on success the `queryFn` side effects run and the framework stores the
returned list under the search key; on rejection nothing is written.
(Retry, if any, is query-framework configuration outside this service;
the service itself dispatches exactly once per attempt.) -/
def searchStep {E : Type} (ns q : String) (toOption : E → ComboboxOption)
    (result : Except Unit (List E)) (s : SvcState) : SvcState :=
  if (lookupSearchData s.cache ns q).isSome then s
  else
    match result with
    | .ok entities =>
      let step := runQueryFn ns toOption entities s.cache
      { cache := setSearchData step.1 ns q step.2, searchCalls := s.searchCalls + 1 }
    | .error _ => { cache := s.cache, searchCalls := s.searchCalls + 1 }

/-- What the hook hands to the UI as `options` for the current debounced
query: the data under the current search key, with the previous data as
placeholder while absent (`placeholderData: (prev) => prev`). -/
def displayedOptions (c : Cache) (ns currentQuery : String)
    (placeholder : List ComboboxOption) : List ComboboxOption :=
  (lookupSearchData c ns currentQuery).getD placeholder

/-- Entity-slot lookups are untouched by writes performed by a fold of
`setEntityData` over options none of which has the looked-up value. -/
theorem lookupEntityData_foldl_of_not_mem (os : List ComboboxOption)
    (c : Cache) (ns ns' id' : String)
    (h : ∀ o ∈ os, (ns, o.value) ≠ (ns', id')) :
    lookupEntityData (os.foldl (fun acc o => setEntityData acc ns o.value o) c) ns' id'
      = lookupEntityData c ns' id' := by
  induction os generalizing c with
  | nil => rfl
  | cons o rest ih =>
    have hrest : ∀ o' ∈ rest, (ns, o'.value) ≠ (ns', id') := by
      intro o' ho'
      exact h o' (List.mem_cons_of_mem _ ho')
    have hhd : (ns, o.value) ≠ (ns', id') := h o (List.mem_cons_self _ _)
    simp only [List.foldl_cons, ih _ hrest,
      lookupEntityData_setEntityData, if_neg hhd]

/-- After the `queryFn` fold, every written option (with a unique value
among the batch) is readable from its individual slot. -/
theorem lookupEntityData_foldl_mem (os : List ComboboxOption)
    (c : Cache) (ns : String) (o : ComboboxOption) (ho : o ∈ os)
    (hnd : (os.map (fun o => o.value)).Nodup) :
    lookupEntityData (os.foldl (fun acc o => setEntityData acc ns o.value o) c) ns o.value
      = some o := by
  induction os generalizing c with
  | nil => cases ho
  | cons hd rest ih =>
    rw [List.map_cons, List.nodup_cons] at hnd
    rcases List.mem_cons.mp ho with h | h
    · subst h
      have hnot : ∀ o' ∈ rest, (ns, o'.value) ≠ (ns, o.value) := by
        intro o' ho' hcontra
        have hv : o'.value = o.value := by
          simpa using congrArg Prod.snd hcontra
        exact hnd.1 (hv ▸ List.mem_map_of_mem _ ho')
      simp only [List.foldl_cons]
      rw [lookupEntityData_foldl_of_not_mem _ _ _ _ _ hnot,
        lookupEntityData_setEntityData, if_pos rfl]
    · simp only [List.foldl_cons]
      exact ih _ h hnd.2

/-- The `queryFn` fold never touches search slots. -/
theorem lookupSearchData_foldl (os : List ComboboxOption) (c : Cache)
    (ns ns' q' : String) :
    lookupSearchData (os.foldl (fun acc o => setEntityData acc ns o.value o) c) ns' q'
      = lookupSearchData c ns' q' := by
  induction os generalizing c with
  | nil => rfl
  | cons o rest ih => simp only [List.foldl_cons, ih, lookupSearchData_setEntityData]

/-- C2: on a cache miss, a search dispatches the integrator's `searchFn`
exactly once, stores the mapped result list under
`(namespace, "search", query)`, and stores every returned entity
individually under `(namespace, entity id)`; consequently `getLabel`
resolves every returned entity's id to its label purely from the cache —
`getLabel` takes only the cache, so no further `searchFn` call is
involved.  Hypotheses: the batch's mapped ids are pairwise distinct, and
each is a real persisted id (non-empty, not carrying the created
marker) — the integrator's id contract. -/
theorem search_miss_populates_cache {E : Type} (ns q : String)
    (toOption : E → ComboboxOption) (entities : List E) (s : SvcState)
    (hmiss : lookupSearchData s.cache ns q = none)
    (hnd : (entities.map (fun e => (toOption e).value)).Nodup)
    (hreal : ∀ e ∈ entities, (toOption e).value ≠ ""
      ∧ isCreatedValue (some (toOption e).value) = false) :
    (searchStep ns q toOption (Except.ok entities) s).searchCalls = s.searchCalls + 1
    ∧ lookupSearchData (searchStep ns q toOption (Except.ok entities) s).cache ns q
        = some (entities.map toOption)
    ∧ (∀ e ∈ entities,
        lookupEntityData (searchStep ns q toOption (Except.ok entities) s).cache
          ns (toOption e).value = some (toOption e))
    ∧ (∀ e ∈ entities,
        getLabel (searchStep ns q toOption (Except.ok entities) s).cache
          ns (some (toOption e).value) = (toOption e).label) := by
  have hstep : searchStep ns q toOption (Except.ok entities) s
      = { cache := setSearchData
            ((entities.map toOption).foldl
              (fun acc o => setEntityData acc ns o.value o) s.cache)
            ns q (entities.map toOption),
          searchCalls := s.searchCalls + 1 } := by
    simp [searchStep, hmiss, runQueryFn]
  have hentity : ∀ e ∈ entities,
      lookupEntityData (searchStep ns q toOption (Except.ok entities) s).cache
        ns (toOption e).value = some (toOption e) := by
    intro e he
    rw [hstep]
    show lookupEntityData (setSearchData _ ns q _) ns (toOption e).value = _
    have : lookupEntityData (setSearchData
        ((entities.map toOption).foldl
          (fun acc o => setEntityData acc ns o.value o) s.cache)
        ns q (entities.map toOption)) ns (toOption e).value
        = lookupEntityData
          ((entities.map toOption).foldl
            (fun acc o => setEntityData acc ns o.value o) s.cache)
          ns (toOption e).value := rfl
    rw [this]
    exact lookupEntityData_foldl_mem _ _ _ _ (List.mem_map_of_mem _ he)
      (by simpa [Function.comp] using hnd)
  refine ⟨by rw [hstep], ?_, hentity, ?_⟩
  · rw [hstep]
    show lookupSearchData (setSearchData _ ns q _) ns q = _
    rw [lookupSearchData_setSearchData, if_pos rfl]
  · intro e he
    have hv := (hreal e he).1
    have hc := (hreal e he).2
    simp [getLabel, hv, hc, hentity e he]

/-- Instantiation of `search_miss_populates_cache` at the end-to-end
scenario: searching `"companies"` for `"ac"` with one result
`{id:"c1", label:"Acme Corp"}` makes one `searchFn` call, and afterwards
`getLabel("companies","c1")` returns `"Acme Corp"` from the cache. -/
theorem search_miss_populates_cache_check :
    (searchStep "companies" "ac" (fun o : ComboboxOption => o)
        (Except.ok [⟨"c1", "Acme Corp", none⟩]) ⟨emptyCache, 0⟩).searchCalls = 1
    ∧ lookupSearchData (searchStep "companies" "ac" (fun o : ComboboxOption => o)
        (Except.ok [⟨"c1", "Acme Corp", none⟩]) ⟨emptyCache, 0⟩).cache
        "companies" "ac" = some [⟨"c1", "Acme Corp", none⟩]
    ∧ getLabel (searchStep "companies" "ac" (fun o : ComboboxOption => o)
        (Except.ok [⟨"c1", "Acme Corp", none⟩]) ⟨emptyCache, 0⟩).cache
        "companies" (some "c1") = "Acme Corp" := by
  have h := search_miss_populates_cache "companies" "ac"
      (fun o : ComboboxOption => o) [⟨"c1", "Acme Corp", none⟩] ⟨emptyCache, 0⟩
      (by decide) (by decide) (by decide)
  refine ⟨h.1, by simpa using h.2.1, ?_⟩
  have := h.2.2.2 ⟨"c1", "Acme Corp", none⟩ (by decide)
  simpa using this

/-! ### Stale race resolution

Both requests of a race are already in flight, so both run their
`queryFn` and store their result — each under its own
`[entityKey, "search", query]` key (the request token of the design: a
result can only land under the key of the query that issued it).  The UI
reads the slot of the currently settled query. -/

/-- Apply a resolved in-flight search result to the cache: the `queryFn`
side effects followed by the framework write under that query's own key. -/
def applySearchResult {E : Type} (ns q : String) (toOption : E → ComboboxOption)
    (entities : List E) (c : Cache) : Cache :=
  let step := runQueryFn ns toOption entities c
  setSearchData step.1 ns q step.2

/-- Resolving a request writes its own search slot and passes every other
search slot through unchanged. -/
theorem lookupSearchData_applySearchResult {E : Type} (ns q' q : String)
    (toOption : E → ComboboxOption) (r : List E) (c : Cache) :
    lookupSearchData (applySearchResult ns q' toOption r c) ns q
      = if q' = q then some (r.map toOption)
        else lookupSearchData c ns q := by
  simp only [applySearchResult, runQueryFn]
  rw [lookupSearchData_setSearchData]
  by_cases h : q' = q
  · simp [h]
  · have hkey : ((ns, q') : String × String) ≠ (ns, q) := by
      intro hc
      exact h (by simpa using congrArg Prod.snd hc)
    rw [if_neg hkey, if_neg h, lookupSearchData_foldl]

/-- C1: if the session's settled query is `q2` and a superseded request
for `q1 ≠ q2` is still in flight, then whatever order the two requests
resolve in, the options displayed afterwards are those of `q2` — the
superseded result is confined to its own cache slot and never clobbers
the display. -/
theorem stale_race_later_query_wins {E1 E2 : Type} (ns q1 q2 : String)
    (to1 : E1 → ComboboxOption) (to2 : E2 → ComboboxOption)
    (r1 : List E1) (r2 : List E2) (c : Cache) (ph : List ComboboxOption)
    (hne : q1 ≠ q2) :
    displayedOptions (applySearchResult ns q1 to1 r1
        (applySearchResult ns q2 to2 r2 c)) ns q2 ph = r2.map to2
    ∧ displayedOptions (applySearchResult ns q2 to2 r2
        (applySearchResult ns q1 to1 r1 c)) ns q2 ph = r2.map to2 := by
  constructor
  · show (lookupSearchData _ ns q2).getD ph = _
    rw [lookupSearchData_applySearchResult, if_neg hne,
      lookupSearchData_applySearchResult, if_pos rfl]
    rfl
  · show (lookupSearchData _ ns q2).getD ph = _
    rw [lookupSearchData_applySearchResult, if_pos rfl]
    rfl

/-- Instantiation of `stale_race_later_query_wins` at the spec's test:
a delayed `"ac"` result resolving after (or before) the `"acme"` result
leaves `"acme"`'s options displayed in both completion orders. -/
theorem stale_race_later_query_wins_check :
    displayedOptions (applySearchResult "companies" "ac" (fun o : ComboboxOption => o)
        [⟨"c0", "AC Hotels", none⟩]
        (applySearchResult "companies" "acme" (fun o : ComboboxOption => o)
          [⟨"c1", "Acme Corp", none⟩] emptyCache)) "companies" "acme" []
      = [⟨"c1", "Acme Corp", none⟩]
    ∧ displayedOptions (applySearchResult "companies" "acme" (fun o : ComboboxOption => o)
        [⟨"c1", "Acme Corp", none⟩]
        (applySearchResult "companies" "ac" (fun o : ComboboxOption => o)
          [⟨"c0", "AC Hotels", none⟩] emptyCache)) "companies" "acme" []
      = [⟨"c1", "Acme Corp", none⟩] := by
  have h := stale_race_later_query_wins "companies" "ac" "acme"
      (fun o : ComboboxOption => o) (fun o : ComboboxOption => o)
      [⟨"c0", "AC Hotels", none⟩] [⟨"c1", "Acme Corp", none⟩] emptyCache []
      (by decide)
  exact ⟨by simpa using h.1, by simpa using h.2⟩

/-! ### Failure semantics -/

/-- The pair the hook exposes once an attempt has concluded:
`isLoading` (false — the attempt is over, whether it succeeded or
failed) and the displayed options. -/
def queryViewAfter (c : Cache) (ns q : String)
    (prev : List ComboboxOption) : Bool × List ComboboxOption :=
  (false, displayedOptions c ns q prev)

/-- C6: when the integrator's `searchFn` rejects, the attempt concludes
with `isLoading = false` and the previous options (empty when there were
none), the cache is left exactly as it was (nothing written for the
failed query, nothing removed), and the service made exactly one
`searchFn` dispatch — it does not retry on its own. -/
theorem search_failure_leaves_cache_untouched {E : Type} (ns q : String)
    (toOption : E → ComboboxOption) (s : SvcState)
    (prev : List ComboboxOption)
    (hmiss : lookupSearchData s.cache ns q = none) :
    (searchStep ns q toOption (Except.error ()) s).cache = s.cache
    ∧ (searchStep ns q toOption (Except.error ()) s).searchCalls = s.searchCalls + 1
    ∧ (queryViewAfter (searchStep ns q toOption (Except.error ()) s).cache
        ns q prev).1 = false
    ∧ (queryViewAfter (searchStep ns q toOption (Except.error ()) s).cache
        ns q prev).2 = prev := by
  have hstep : searchStep ns q toOption (Except.error ()) s
      = { cache := s.cache, searchCalls := s.searchCalls + 1 } := by
    simp [searchStep, hmiss]
  refine ⟨by rw [hstep], by rw [hstep], rfl, ?_⟩
  rw [hstep]
  show (queryViewAfter s.cache ns q prev).2 = prev
  simp [queryViewAfter, displayedOptions, hmiss]

/-- Instantiation of `search_failure_leaves_cache_untouched` at a cache
holding one prior good entry: a rejected search for `"acme"` keeps the
cache intact, counts one call, and reports `isLoading = false` with the
previous options. -/
theorem search_failure_leaves_cache_untouched_check :
    (searchStep "companies" "acme" (fun o : ComboboxOption => o)
        (Except.error ())
        ⟨setEntityData emptyCache "companies" "c1" ⟨"c1", "Acme Corp", none⟩, 3⟩).cache
      = setEntityData emptyCache "companies" "c1" ⟨"c1", "Acme Corp", none⟩
    ∧ (searchStep "companies" "acme" (fun o : ComboboxOption => o)
        (Except.error ())
        ⟨setEntityData emptyCache "companies" "c1" ⟨"c1", "Acme Corp", none⟩, 3⟩).searchCalls = 4
    ∧ (queryViewAfter (searchStep "companies" "acme" (fun o : ComboboxOption => o)
        (Except.error ())
        ⟨setEntityData emptyCache "companies" "c1" ⟨"c1", "Acme Corp", none⟩, 3⟩).cache
        "companies" "acme" []).2 = [] := by
  have h := search_failure_leaves_cache_untouched "companies" "acme"
      (fun o : ComboboxOption => o)
      ⟨setEntityData emptyCache "companies" "c1" ⟨"c1", "Acme Corp", none⟩, 3⟩
      [] (by decide)
  exact ⟨h.1, h.2.1, h.2.2.2⟩

/-! ### Reactive multi-label resolution

Translated from `src/tanstack-form-research/v4/index.ts` lines 209-233
(`useResolvedLabels`).  Created sentinels are filtered out and decoded
inline; each remaining real id gets a `useQueries` entry on the key
`[entityKey, id]` whose `queryFn` is the pure fallback
`{value: id, label: id}` (`staleTime: Infinity`), so an entry's data is
the cached option when the slot is warm and the fallback otherwise.
The `Map` built from the query results is modelled as an association
list where `set` prepends (so the latest write wins on lookup). -/

/-- One row of the resolver's result. -/
structure ResolvedLabel where
  id : String
  label : String
  isLoading : Bool
deriving DecidableEq

/-- Data observed by the `useQueries` entry for `id`: the cached option
if the slot is warm, else the pure fallback `{value: id, label: id}`. -/
def queryData (c : Cache) (ns id : String) : ComboboxOption :=
  match lookupEntityData c ns id with
  | some o => o
  | none => { value := id, label := id }

/-- First-match lookup in a string-keyed association list
(JS `Map.prototype.get`, with `set` modelled as a prepend). -/
def lookupStr : List (String × String) → String → Option String
  | [], _ => none
  | (k, v) :: rest, id => if k = id then some v else lookupStr rest id

/-- Resolve a list of identifiers to `{id, label, isLoading}` rows:
split off created sentinels, build the query lookup map from the real
ids, and map every input position to its row. -/
def useResolvedLabels (c : Cache) (ns : String) (ids : List String) :
    List ResolvedLabel :=
  let realIds := ids.filter (fun id => !(isCreatedValue (some id)))
  let queryLookup := realIds.foldl
    (fun m id => (id, (queryData c ns id).label) :: m)
    ([] : List (String × String))
  ids.map (fun id =>
    { id := id
      label :=
        if isCreatedValue (some id) then parseCreatedName id
        else
          match lookupStr queryLookup id with
          | some l => l
          | none => id
      isLoading := false })

/-- The distinct query keys the resolver's `useQueries` batch holds: one
per distinct real id.  `useQueries` entries sharing a key share a single
underlying fetch, so this list is exactly the set of fetches. -/
def fetchedKeys (ids : List String) : List String :=
  (ids.filter (fun id => !(isCreatedValue (some id)))).dedup

theorem lookupStr_mem (m : List (String × String)) (id v : String)
    (h : lookupStr m id = some v) : (id, v) ∈ m := by
  induction m with
  | nil => cases h
  | cons p rest ih =>
    obtain ⟨k, w⟩ := p
    by_cases hk : k = id
    · subst hk
      rw [lookupStr, if_pos rfl] at h
      simp only [Option.some.injEq] at h
      subst h
      exact List.mem_cons_self _ _
    · rw [lookupStr, if_neg hk] at h
      exact List.mem_cons_of_mem _ (ih h)

theorem buildMap_graph (f : String → String) (l : List String)
    (acc : List (String × String)) (hacc : ∀ p ∈ acc, p.2 = f p.1) :
    ∀ p ∈ l.foldl (fun m id => (id, f id) :: m) acc, p.2 = f p.1 := by
  induction l generalizing acc with
  | nil => exact hacc
  | cons a rest ih =>
    refine ih ((a, f a) :: acc) ?_
    intro p hp
    rcases List.mem_cons.mp hp with h | h
    · subst h; rfl
    · exact hacc p h

theorem buildMap_isSome (f : String → String) (l : List String)
    (acc : List (String × String)) (id : String)
    (h : (lookupStr acc id).isSome = true ∨ id ∈ l) :
    (lookupStr (l.foldl (fun m id => (id, f id) :: m) acc) id).isSome = true := by
  induction l generalizing acc with
  | nil =>
    rcases h with h | h
    · exact h
    · cases h
  | cons a rest ih =>
    refine ih ((a, f a) :: acc) ?_
    by_cases ha : a = id
    · subst ha
      left
      simp [lookupStr]
    · rcases h with h | h
      · left
        simpa [lookupStr, ha] using h
      · rcases List.mem_cons.mp h with hh | hh
        · exact absurd hh.symm ha
        · right; exact hh

theorem buildMap_lookup (f : String → String) (l : List String) (id : String)
    (h : id ∈ l) :
    lookupStr (l.foldl (fun m id => (id, f id) :: m) []) id = some (f id) := by
  have hsome := buildMap_isSome f l [] id (Or.inr h)
  obtain ⟨v, hv⟩ := Option.isSome_iff_exists.mp hsome
  have hmem := lookupStr_mem _ _ _ hv
  have hgraph := buildMap_graph f l [] (by intro p hp; cases hp) _ hmem
  rw [hv]
  exact congrArg some hgraph

/-- C9: the resolver returns exactly one row per input position, in
input order — position `i`'s row carries input id `i` — and every row's
label is a function of its id alone: created sentinels are decoded
(`parseCreatedName`, no cache involved), real ids take the label of
their (shared) query entry.  Hence duplicated ids resolve to identical
labels.  The underlying `useQueries` fetch set holds exactly one key per
distinct real id — duplicates are deduplicated in the fetch, never in
the output — and no created sentinel is fetched. -/
theorem resolved_labels_spec (c : Cache) (ns : String) (ids : List String) :
    useResolvedLabels c ns ids = ids.map (fun id =>
      { id := id
        label :=
          if isCreatedValue (some id) then parseCreatedName id
          else (queryData c ns id).label
        isLoading := false })
    ∧ (useResolvedLabels c ns ids).length = ids.length
    ∧ (∀ i : Nat, (useResolvedLabels c ns ids)[i]?
        = (ids[i]?).map (fun id =>
          { id := id
            label :=
              if isCreatedValue (some id) then parseCreatedName id
              else (queryData c ns id).label
            isLoading := false }))
    ∧ (∀ r ∈ useResolvedLabels c ns ids, ∀ s ∈ useResolvedLabels c ns ids,
        r.id = s.id → r.label = s.label)
    ∧ (fetchedKeys ids).Nodup
    ∧ (∀ id ∈ ids, isCreatedValue (some id) = false →
        (fetchedKeys ids).count id = 1)
    ∧ (∀ id ∈ ids, isCreatedValue (some id) = true → id ∉ fetchedKeys ids) := by
  have hclosed : useResolvedLabels c ns ids = ids.map (fun id =>
      { id := id
        label :=
          if isCreatedValue (some id) then parseCreatedName id
          else (queryData c ns id).label
        isLoading := false }) := by
    rw [useResolvedLabels]
    refine List.map_congr_left ?_
    intro a ha
    by_cases hcr : isCreatedValue (some a) = true
    · simp [hcr]
    · have hreal : a ∈ ids.filter (fun id => !(isCreatedValue (some id))) := by
        rw [List.mem_filter]
        exact ⟨ha, by simp [Bool.not_eq_true] at hcr ⊢; exact hcr⟩
      have hlook := buildMap_lookup (fun id => (queryData c ns id).label) _ a hreal
      simp [hcr, hlook]
  have hlabelfun : ∀ r ∈ useResolvedLabels c ns ids,
      r.label = (if isCreatedValue (some r.id) then parseCreatedName r.id
        else (queryData c ns r.id).label) := by
    intro r hr
    rw [hclosed] at hr
    obtain ⟨a, _, ha⟩ := List.mem_map.mp hr
    subst ha
    rfl
  refine ⟨hclosed, by rw [hclosed, List.length_map], ?_, ?_, ?_, ?_, ?_⟩
  · intro i
    rw [hclosed, List.getElem?_map]
  · intro r hr s hs hid
    rw [hlabelfun r hr, hlabelfun s hs, hid]
  · exact List.nodup_dedup _
  · intro id hid hreal
    refine List.count_eq_one_of_mem (List.nodup_dedup _) ?_
    rw [fetchedKeys, List.mem_dedup, List.mem_filter]
    exact ⟨hid, by simp [hreal]⟩
  · intro id hid hcr hmem
    rw [fetchedKeys, List.mem_dedup, List.mem_filter] at hmem
    simp [hcr] at hmem

/-- Instantiation of `resolved_labels_spec` at the spec's test:
resolving `["u5","u1","u5"]` (with `"u5"` cached as Bob) yields three
rows in input order, the two `"u5"` rows with the identical cached label,
while the fetch set holds `"u5"` exactly once. -/
theorem resolved_labels_spec_check :
    useResolvedLabels (setEntityData emptyCache "users" "u5" ⟨"u5", "Bob", none⟩)
        "users" ["u5", "u1", "u5"]
      = [⟨"u5", "Bob", false⟩, ⟨"u1", "u1", false⟩, ⟨"u5", "Bob", false⟩]
    ∧ (fetchedKeys ["u5", "u1", "u5"]).count "u5" = 1 := by
  have h := resolved_labels_spec
      (setEntityData emptyCache "users" "u5" ⟨"u5", "Bob", none⟩) "users"
      ["u5", "u1", "u5"]
  refine ⟨h.1.trans (by decide), ?_⟩
  exact h.2.2.2.2.2.1 "u5" (by decide) (by decide)

/-! ### Creatable fields: create-affordance visibility

Translated from `src/unnamed/part_010` lines 258-264
(`CreatableEntitySearchField`) and
`src/tanstack-form-research/v4/select-fields.tsx` lines 403-422
(`CreatableEntityMultiSearchField`). -/

/-- The storage mode of a creatable field: the stored value is the
display name, or the entity id / created sentinel. -/
inductive StoreMode where
  | name : StoreMode
  | id : StoreMode
deriving DecidableEq

/-- Source: `options.some((o) => o.label.toLowerCase() ===
search.toLowerCase())`. -/
def exactMatch (options : List ComboboxOption) (search : String) : Bool :=
  options.any (fun o => jsToLower o.label == jsToLower search)

/-- Visibility of the create option in the single creatable field.
Source: `search.length > 0 && !isLoading && !exactMatch`. -/
def showCreateSingle (search : String) (isLoading : Bool)
    (options : List ComboboxOption) : Bool :=
  decide (0 < search.length) && !isLoading && !(exactMatch options search)

/-- The multi field's duplicate-pill check.  Name mode compares selected
values to the typed text case-insensitively; id mode compares only the
decoded names of created-sentinel values. -/
def alreadySelected (storeMode : StoreMode) (selectedValues : List String)
    (search : String) : Bool :=
  match storeMode with
  | .name => selectedValues.any (fun v => jsToLower v == jsToLower search)
  | .id => selectedValues.any (fun v =>
      isCreatedValue (some v) && (jsToLower (parseCreatedName v) == jsToLower search))

/-- Visibility of the create option in the multi creatable field.
Source: `search.length > 0 && !isLoading && !exactMatch &&
!alreadySelected`. -/
def showCreateMulti (storeMode : StoreMode) (selectedValues : List String)
    (search : String) (isLoading : Bool) (options : List ComboboxOption) : Bool :=
  decide (0 < search.length) && !isLoading && !(exactMatch options search)
    && !(alreadySelected storeMode selectedValues search)

/-- The value a create action would store: the typed text in name mode,
its created sentinel in id mode. -/
def wouldCreateValue (storeMode : StoreMode) (search : String) : String :=
  match storeMode with
  | .name => search
  | .id => makeCreatedValue search

/-- The claim's visibility rule for the multi field taken literally:
its final clause is plain membership of the would-be-created value among
the selected values (the source instead compares case-insensitively, and
in id mode only against created sentinels). -/
def claimShowCreateMulti (storeMode : StoreMode) (selectedValues : List String)
    (search : String) (isLoading : Bool) (options : List ComboboxOption) : Bool :=
  decide (0 < search.length) && !isLoading && !(exactMatch options search)
    && !(selectedValues.contains (wouldCreateValue storeMode search))

/-- C5 counterexample: in name mode with `"ACME"` selected and `"acme"`
typed (no options, not loading), the claim's literal membership test
predicts the create option is shown — `"acme"` is not among the selected
values — but the source hides it, because its already-selected check is
case-insensitive. -/
theorem show_create_claim_counterexample :
    claimShowCreateMulti StoreMode.name ["ACME"] "acme" false [] = true
    ∧ showCreateMulti StoreMode.name ["ACME"] "acme" false [] = false := by
  decide

/-- C5 (amended): the create option of the single creatable field is
shown iff the typed text is non-empty, no search is loading, and no
option's label case-insensitively equals the typed text; the multi
field additionally requires that no selected value collides with the
would-be creation, compared case-insensitively — against the selected
values themselves in name mode, and against the decoded names of
created-sentinel values in id mode. -/
theorem show_create_visibility (storeMode : StoreMode)
    (selectedValues : List String) (search : String) (isLoading : Bool)
    (options : List ComboboxOption) :
    (showCreateSingle search isLoading options = true ↔
      search ≠ "" ∧ isLoading = false
        ∧ ∀ o ∈ options, jsToLower o.label ≠ jsToLower search)
    ∧ (showCreateMulti storeMode selectedValues search isLoading options = true ↔
      search ≠ "" ∧ isLoading = false
        ∧ (∀ o ∈ options, jsToLower o.label ≠ jsToLower search)
        ∧ (match storeMode with
           | .name => ∀ v ∈ selectedValues, jsToLower v ≠ jsToLower search
           | .id => ∀ v ∈ selectedValues, isCreatedValue (some v) = true →
               jsToLower (parseCreatedName v) ≠ jsToLower search)) := by
  have hlen : (decide (0 < search.length) = true) ↔ search ≠ "" := by
    rw [decide_eq_true_eq]
    constructor
    · intro h hs
      subst hs
      simp [String.length] at h
    · intro h
      have : search.data ≠ [] := by
        intro hd
        exact h (by cases search; simp_all)
      cases hd : search.data with
      | nil => exact absurd hd this
      | cons a l => simp [String.length, hd]
  constructor
  · simp only [showCreateSingle, Bool.and_eq_true, Bool.not_eq_true',
      exactMatch, List.any_eq_false, Bool.not_eq_true]
    constructor
    · rintro ⟨⟨h1, h2⟩, h3⟩
      exact ⟨hlen.mp h1, h2, by
        intro o ho
        have := h3 o ho
        simpa using this⟩
    · rintro ⟨h1, h2, h3⟩
      exact ⟨⟨hlen.mpr h1, h2⟩, by
        intro o ho
        simpa using h3 o ho⟩
  · simp only [showCreateMulti, Bool.and_eq_true, Bool.not_eq_true',
      exactMatch, List.any_eq_false, Bool.not_eq_true]
    constructor
    · rintro ⟨⟨⟨h1, h2⟩, h3⟩, h4⟩
      refine ⟨hlen.mp h1, h2, by
        intro o ho
        simpa using h3 o ho, ?_⟩
      cases storeMode with
      | name =>
        rw [alreadySelected, List.any_eq_false] at h4
        intro v hv
        simpa using h4 v hv
      | id =>
        rw [alreadySelected, List.any_eq_false] at h4
        intro v hv hcv
        have := h4 v hv
        simpa [hcv] using this
    · rintro ⟨h1, h2, h3, h4⟩
      refine ⟨⟨⟨hlen.mpr h1, h2⟩, by
        intro o ho
        simpa using h3 o ho⟩, ?_⟩
      cases storeMode with
      | name =>
        rw [alreadySelected, List.any_eq_false]
        intro v hv
        simpa using h4 v hv
      | id =>
        rw [alreadySelected, List.any_eq_false]
        intro v hv
        by_cases hcv : isCreatedValue (some v) = true
        · simpa [hcv] using h4 v hv hcv
        · simp [Bool.not_eq_true] at hcv
          simp [hcv]

/-- Instantiation of `show_create_visibility` at the spec's test: with
options `[{id:"c1", label:"Acme Corp"}]`, typing `"acme CORP"` hides the
create affordance and typing `"Acme"` shows it, in both field shapes. -/
theorem show_create_visibility_check :
    showCreateSingle "acme CORP" false [⟨"c1", "Acme Corp", none⟩] = false
    ∧ showCreateSingle "Acme" false [⟨"c1", "Acme Corp", none⟩] = true
    ∧ showCreateMulti StoreMode.name [] "Acme" false [⟨"c1", "Acme Corp", none⟩] = true := by
  refine ⟨?_, ?_, ?_⟩
  · have h := (show_create_visibility StoreMode.name [] "acme CORP" false
      [⟨"c1", "Acme Corp", none⟩]).1
    rw [Bool.eq_false_iff]
    intro hc
    have := (h.mp hc).2.2 ⟨"c1", "Acme Corp", none⟩ (by decide)
    exact this (by decide)
  · exact (show_create_visibility StoreMode.name [] "Acme" false
      [⟨"c1", "Acme Corp", none⟩]).1.mpr ⟨by decide, rfl, by decide⟩
  · exact (show_create_visibility StoreMode.name [] "Acme" false
      [⟨"c1", "Acme Corp", none⟩]).2.mpr ⟨by decide, rfl, by decide, by decide⟩

/-! ### Multi-select value cap

Translated from `src/tanstack-form-research/v4/select-fields.tsx`:
`EntityMultiSearchField.handleSelect` (lines 229-237) and
`CreatableEntityMultiSearchField.handleSubmit` (lines 426-442); the v3
`EntityMultiSearchField.handleSelect` (lines 109-117 of
`entity-multi-search-field.tsx`) is the same logic. -/

/-- The sentinel option value of the create row (`CREATE_SENTINEL`). -/
def createSentinel : String := "$create"

/-- Toggle semantics of the multi search field: an already-selected value
is removed; otherwise the value is appended unless a positive `maxValues`
cap is already met, in which case nothing changes. -/
def handleSelect (maxValues : Nat) (selectedValues : List String)
    (val : String) : List String :=
  if selectedValues.contains val then
    selectedValues.filter (fun v => !(v == val))
  else if decide (0 < maxValues) && decide (maxValues ≤ selectedValues.length) then
    selectedValues
  else
    selectedValues ++ [val]

/-- The value the creatable multi field stores for a submitted option:
the create row maps to the typed text (name mode) or its created
sentinel (id mode); any other option value passes through. -/
def submitValue (storeMode : StoreMode) (search val : String) : String :=
  if val = createSentinel then
    match storeMode with
    | .name => search
    | .id => makeCreatedValue search
  else val

/-- The creatable multi field's submit handler: compute the stored value,
then apply the same toggle/cap logic as `handleSelect`. -/
def handleSubmit (maxValues : Nat) (storeMode : StoreMode) (search : String)
    (selectedValues : List String) (val : String) : List String :=
  let newValue := submitValue storeMode search val
  if selectedValues.contains newValue then
    selectedValues.filter (fun v => !(v == newValue))
  else if decide (0 < maxValues) && decide (maxValues ≤ selectedValues.length) then
    selectedValues
  else
    selectedValues ++ [newValue]

theorem handleSubmit_eq_handleSelect (maxValues : Nat) (storeMode : StoreMode)
    (search : String) (selectedValues : List String) (val : String) :
    handleSubmit maxValues storeMode search selectedValues val
      = handleSelect maxValues selectedValues (submitValue storeMode search val) := rfl

theorem handleSelect_cap_noop (maxValues : Nat) (sel : List String)
    (val : String) (hpos : 0 < maxValues) (hfull : maxValues ≤ sel.length)
    (hnot : val ∉ sel) :
    handleSelect maxValues sel val = sel := by
  have hc : sel.contains val = false := by
    rw [← Bool.not_eq_true]
    intro hcv
    exact hnot (List.mem_of_elem_eq_true hcv)
  rw [handleSelect, hc, if_neg (by simp), if_pos (by simp [hpos, hfull])]

theorem handleSelect_remove (maxValues : Nat) (sel : List String)
    (val : String) (hmem : val ∈ sel) :
    handleSelect maxValues sel val = sel.filter (fun v => !(v == val))
    ∧ val ∉ handleSelect maxValues sel val := by
  have hc : sel.contains val = true := List.elem_eq_true_of_mem hmem
  constructor
  · rw [handleSelect, hc, if_pos rfl]
  · rw [handleSelect, hc, if_pos rfl]
    intro hv
    have := (List.mem_filter.mp hv).2
    simp at this

theorem handleSelect_length_le (maxValues : Nat) (sel : List String)
    (val : String) (hpos : 0 < maxValues) (hle : sel.length ≤ maxValues) :
    (handleSelect maxValues sel val).length ≤ maxValues := by
  rw [handleSelect]
  by_cases hmem : sel.contains val = true
  · rw [if_pos hmem]
    exact le_trans (List.length_filter_le _ _) hle
  · rw [if_neg hmem]
    by_cases hfull : maxValues ≤ sel.length
    · rw [if_pos (by simp [hpos, hfull])]
      exact hle
    · rw [if_neg (by simp [hpos, hfull])]
      have : sel.length < maxValues := Nat.lt_of_not_le hfull
      simpa using this

/-- C10: in both multi fields, whenever `maxValues` is positive and at
least `maxValues` entries are selected, submitting a value that is not
currently selected leaves the selection unchanged (a silent no-op), so
the selection length never exceeds `maxValues`; submitting an
already-selected value is exempt from the cap and removes that value.
Stated for `handleSelect` (`EntityMultiSearchField`) and for
`handleSubmit` (`CreatableEntityMultiSearchField`, whose stored value is
`submitValue storeMode search val`). -/
theorem multi_select_max_values_cap (maxValues : Nat) (sel : List String)
    (val : String) (storeMode : StoreMode) (search : String)
    (hpos : 0 < maxValues) :
    (maxValues ≤ sel.length → val ∉ sel → handleSelect maxValues sel val = sel)
    ∧ (val ∈ sel → handleSelect maxValues sel val = sel.filter (fun v => !(v == val))
        ∧ val ∉ handleSelect maxValues sel val)
    ∧ (sel.length ≤ maxValues → (handleSelect maxValues sel val).length ≤ maxValues)
    ∧ (maxValues ≤ sel.length → submitValue storeMode search val ∉ sel →
        handleSubmit maxValues storeMode search sel val = sel)
    ∧ (submitValue storeMode search val ∈ sel →
        submitValue storeMode search val ∉ handleSubmit maxValues storeMode search sel val)
    ∧ (sel.length ≤ maxValues →
        (handleSubmit maxValues storeMode search sel val).length ≤ maxValues) := by
  refine ⟨fun hfull hnot => handleSelect_cap_noop maxValues sel val hpos hfull hnot,
    fun hmem => handleSelect_remove maxValues sel val hmem,
    fun hle => handleSelect_length_le maxValues sel val hpos hle,
    ?_, ?_, ?_⟩
  · intro hfull hnot
    rw [handleSubmit_eq_handleSelect]
    exact handleSelect_cap_noop maxValues sel _ hpos hfull hnot
  · intro hmem
    rw [handleSubmit_eq_handleSelect]
    exact (handleSelect_remove maxValues sel _ hmem).2
  · intro hle
    rw [handleSubmit_eq_handleSelect]
    exact handleSelect_length_le maxValues sel _ hpos hle

/-- Instantiation of `multi_select_max_values_cap` at `maxValues = 2`
with `["a","b"]` selected: submitting the unselected `"c"` is a no-op,
submitting the selected `"b"` removes it, and creating `"NewCo"` in id
mode against the full selection is a no-op for the creatable field. -/
theorem multi_select_max_values_cap_check :
    handleSelect 2 ["a", "b"] "c" = ["a", "b"]
    ∧ ("b" ∉ handleSelect 2 ["a", "b"] "b")
    ∧ handleSubmit 2 StoreMode.id "NewCo" ["a", "b"] "$create" = ["a", "b"] := by
  have h := multi_select_max_values_cap 2 ["a", "b"] "c" StoreMode.id "NewCo"
      (by decide)
  have h2 := multi_select_max_values_cap 2 ["a", "b"] "b" StoreMode.id "NewCo"
      (by decide)
  have h3 := multi_select_max_values_cap 2 ["a", "b"] "$create" StoreMode.id "NewCo"
      (by decide)
  refine ⟨h.1 (by decide) (by decide), (h2.2.1 (by decide)).2, ?_⟩
  exact h3.2.2.2.1 (by decide) (by decide)

/-! ### The debounced query controller

The hook wires `const [debouncedSearch] = useDebouncedValue(search, 300)`
(`src/tanstack-form-research/v4/index.ts` lines 133-134) and gates the
query with `enabled: debouncedSearch.length >= minChars` (line 153,
default `minChars = 1`).  The debounce primitive itself lives in the
external package, not in this repository. -/

/-- Modelled from the spec: the debounce primitive behind
`useDebouncedValue(search, 300)`, whose implementation is missing from
the repository (it is imported from an external hooks package).  Per the
spec's contract it is a plain trailing-edge debounce: each input restarts
a single timer of `delay`; when the timer fires, the debounced value
becomes the latest raw value and a settle `(fireTime, text)` is
recorded.  The primitive is value-agnostic: it receives only the text
and the delay (`minChars` is not passed to it). -/
structure DebounceState where
  raw : String
  debounced : String
  deadline : Option Nat
  settles : List (Nat × String)
deriving DecidableEq

/-- State at mount: the debounced value starts as the initial value, no
timer pending, nothing settled. -/
def initDebounce (v : String) : DebounceState :=
  { raw := v, debounced := v, deadline := none, settles := [] }

/-- Let a pending timer fire if its deadline has passed by `now`. -/
def fireIfDue (d : DebounceState) (now : Nat) : DebounceState :=
  match d.deadline with
  | some t =>
    if t ≤ now then
      { d with
        debounced := d.raw,
        deadline := none,
        settles := d.settles ++ [(t, d.raw)] }
    else d
  | none => d

/-- A raw input change at time `now`: any timer that was due fires
first, then the raw value updates and the timer restarts. -/
def inputAt (d : DebounceState) (now : Nat) (text : String)
    (delay : Nat) : DebounceState :=
  let d' := fireIfDue d now
  { d' with raw := text, deadline := some (now + delay) }

/-- Feed a time-stamped input trace through the controller. -/
def runInputs (d : DebounceState) (delay : Nat) :
    List (Nat × String) → DebounceState
  | [] => d
  | (t, x) :: rest => runInputs (inputAt d t x delay) delay rest

/-- Observe the controller at time `now` (letting any due timer fire). -/
def observeAt (d : DebounceState) (now : Nat) : DebounceState :=
  fireIfDue d now

/-- The search query's gate, translated from the source line
`enabled: debouncedSearch.length >= minChars`. -/
def searchEnabled (debounced : String) (minChars : Nat) : Bool :=
  decide (minChars ≤ debounced.length)

/-- The source default for `minChars`. -/
def minCharsDefault : Nat := 1

theorem fireIfDue_some_le (d : DebounceState) (t now : Nat)
    (hd : d.deadline = some t) (h : t ≤ now) :
    fireIfDue d now
      = { d with
          debounced := d.raw,
          deadline := none,
          settles := d.settles ++ [(t, d.raw)] } := by
  rw [fireIfDue, hd]
  exact if_pos h

theorem fireIfDue_some_not_le (d : DebounceState) (t now : Nat)
    (hd : d.deadline = some t) (h : ¬ t ≤ now) :
    fireIfDue d now = d := by
  rw [fireIfDue, hd]
  exact if_neg h

/-- A burst of inputs each arriving before the previous timer's deadline
leaves exactly one pending timer for the last input and settles
nothing. -/
theorem runInputs_burst (delay : Nat) :
    ∀ (inputs : List (Nat × String)) (d : DebounceState),
      List.Chain' (fun a b => b.1 < a.1 + delay) inputs →
      (∀ dl, d.deadline = some dl → ∀ p ∈ inputs.head?, p.1 < dl) →
      inputs ≠ [] →
      ∃ p, inputs.getLast? = some p ∧
        runInputs d delay inputs =
          { raw := p.2, debounced := d.debounced,
            deadline := some (p.1 + delay), settles := d.settles } := by
  intro inputs
  induction inputs with
  | nil => intro d _ _ hne; exact absurd rfl hne
  | cons hd rest ih =>
    obtain ⟨t, x⟩ := hd
    intro d hchain hsafe _
    have hfire : fireIfDue d t = d := by
      cases hdl : d.deadline with
      | none => rw [fireIfDue, hdl]
      | some dl =>
        have ht : t < dl := hsafe dl hdl (t, x) (by simp)
        rw [fireIfDue, hdl]
        exact if_neg (Nat.not_le_of_lt ht)
    have hd1 : inputAt d t x delay
        = { raw := x, debounced := d.debounced,
            deadline := some (t + delay), settles := d.settles } := by
      rw [inputAt, hfire]
    cases rest with
    | nil =>
      refine ⟨(t, x), rfl, ?_⟩
      show inputAt d t x delay = _
      rw [hd1]
    | cons hd2 rest2 =>
      obtain ⟨t2, x2⟩ := hd2
      have hchain2 := List.chain'_cons.mp hchain
      obtain ⟨p, hplast, hprun⟩ := ih (inputAt d t x delay) hchain2.2
        (by
          intro dl hdl q hq
          rw [hd1] at hdl
          simp only [Option.some.injEq] at hdl
          simp only [List.head?_cons, Option.mem_def, Option.some.injEq] at hq
          subst hq
          rw [← hdl]
          exact hchain2.1)
        (by simp)
      refine ⟨p, by rw [List.getLast?_cons_cons]; exact hplast, ?_⟩
      show runInputs (inputAt d t x delay) delay ((t2, x2) :: rest2) = _
      rw [hprun, hd1]

/-- C8: for a burst of inputs each arriving within less than `delay` of
the previous one, once the controller is observed at any time `T` past
the last input's deadline it has emitted exactly one settle — recorded
at time `lastInput + delay`, i.e. no earlier than `delay` after the last
input — whose text is the final stable input text, and the debounced
query equals that text.  No intermediate keystroke produces a settle. -/
theorem debounce_collapses_burst (delay : Nat) (inputs : List (Nat × String))
    (p : Nat × String) (hlast : inputs.getLast? = some p)
    (hchain : List.Chain' (fun a b => b.1 < a.1 + delay) inputs)
    (T : Nat) (hT : p.1 + delay ≤ T) :
    (observeAt (runInputs (initDebounce "") delay inputs) T).settles
      = [(p.1 + delay, p.2)]
    ∧ (observeAt (runInputs (initDebounce "") delay inputs) T).debounced = p.2 := by
  have hne : inputs ≠ [] := by
    intro h
    rw [h] at hlast
    cases hlast
  obtain ⟨q, hqlast, hqrun⟩ := runInputs_burst delay inputs (initDebounce "")
    hchain (by intro dl hdl; cases hdl) hne
  have hpq : q = p := by
    rw [hlast] at hqlast
    exact (Option.some.inj hqlast).symm
  subst hpq
  rw [hqrun]
  show (fireIfDue _ T).settles = _ ∧ (fireIfDue _ T).debounced = _
  rw [fireIfDue_some_le _ (q.1 + delay) T rfl hT]
  exact ⟨rfl, rfl⟩

/-- Instantiation of `debounce_collapses_burst` at the spec's test:
`"a"`, `"ac"`, `"acm"`, `"acme"` typed at times 0, 100, 150, 200 with a
300ms delay settle exactly once, at time 500, with text `"acme"`. -/
theorem debounce_collapses_burst_check :
    (observeAt (runInputs (initDebounce "") 300
        [(0, "a"), (100, "ac"), (150, "acm"), (200, "acme")]) 500).settles
      = [(500, "acme")]
    ∧ (observeAt (runInputs (initDebounce "") 300
        [(0, "a"), (100, "ac"), (150, "acm"), (200, "acme")]) 500).debounced
      = "acme" := by
  have hchain : List.Chain' (fun a b : Nat × String => b.1 < a.1 + 300)
      [(0, "a"), (100, "ac"), (150, "acm"), (200, "acme")] :=
    List.Chain.cons (by decide)
      (List.Chain.cons (by decide) (List.Chain.cons (by decide) List.Chain.nil))
  have h := debounce_collapses_burst 300
      [(0, "a"), (100, "ac"), (150, "acm"), (200, "acme")] (200, "acme")
      (by decide) hchain 500 (by decide)
  exact h

/-- The controller state right after a session that settled `"ab"` at
time 300 receives the below-threshold input `""` at time 400. -/
def debAfterDrop : DebounceState :=
  inputAt (observeAt (runInputs (initDebounce "") 300 [(0, "ab")]) 300) 400 "" 300

/-- C7 counterexample: dropping the typed query below the `minChars`
threshold does NOT emit an empty settle immediately.  At time 400 the
session settled on `"ab"` clears its input; right after that keystroke
the settle list still holds only the `"ab"` settle, the debounced query
is still `"ab"` (so the gate still enables the `"ab"` search), nothing
changes before time 700, and the cleared debounced value lands only at
time 700 = 400 + the 300ms delay — contradicting the claim that the
cleared settle is emitted with no debounce delay. -/
theorem below_min_chars_no_immediate_clear_counterexample :
    (observeAt (runInputs (initDebounce "") 300 [(0, "ab")]) 300).debounced = "ab"
    ∧ debAfterDrop.settles = [(300, "ab")]
    ∧ debAfterDrop.debounced = "ab"
    ∧ searchEnabled debAfterDrop.debounced minCharsDefault = true
    ∧ (observeAt debAfterDrop 699).settles = [(300, "ab")]
    ∧ (observeAt debAfterDrop 699).debounced = "ab"
    ∧ (observeAt debAfterDrop 700).debounced = ""
    ∧ searchEnabled (observeAt debAfterDrop 700).debounced minCharsDefault = false := by
  decide

/-- C7 (amended): when the typed query drops below the `minChars`
threshold (here: any `short` with fewer than `minChars` characters,
entered at time `t` into an idle session), no settle is emitted at the
drop and nothing changes while observing before `t + delay`; only at
`t + delay` does the debounced query become the short text, at which
point the gate disables the search query (no request is dispatched for
it).  The clear thus takes effect one debounce delay after the drop,
not immediately. -/
theorem below_min_chars_clears_only_after_delay (delay minChars : Nat)
    (d : DebounceState) (t : Nat) (short : String)
    (hshort : short.length < minChars) (hidle : d.deadline = none) :
    (inputAt d t short delay).debounced = d.debounced
    ∧ (inputAt d t short delay).settles = d.settles
    ∧ (∀ u, u < t + delay → observeAt (inputAt d t short delay) u
        = inputAt d t short delay)
    ∧ (observeAt (inputAt d t short delay) (t + delay)).debounced = short
    ∧ (observeAt (inputAt d t short delay) (t + delay)).settles
        = d.settles ++ [(t + delay, short)]
    ∧ searchEnabled (observeAt (inputAt d t short delay) (t + delay)).debounced
        minChars = false := by
  have hfire : fireIfDue d t = d := by
    rw [fireIfDue, hidle]
  have hd1 : inputAt d t short delay
      = { raw := short, debounced := d.debounced,
          deadline := some (t + delay), settles := d.settles } := by
    rw [inputAt, hfire]
  refine ⟨by rw [hd1], by rw [hd1], ?_, ?_, ?_, ?_⟩
  · intro u hu
    rw [hd1]
    show fireIfDue _ u = _
    rw [fireIfDue]
    simp only [if_neg (Nat.not_le_of_lt hu)]
  · rw [hd1]
    show (fireIfDue _ (t + delay)).debounced = short
    rw [fireIfDue]
    simp only [if_pos (Nat.le_refl _)]
  · rw [hd1]
    show (fireIfDue _ (t + delay)).settles = _
    rw [fireIfDue]
    simp only [if_pos (Nat.le_refl _)]
  · rw [hd1]
    show searchEnabled (fireIfDue _ (t + delay)).debounced minChars = false
    rw [fireIfDue]
    simp only [if_pos (Nat.le_refl _)]
    rw [searchEnabled, decide_eq_false_iff_not]
    exact Nat.not_le_of_lt hshort

/-- Instantiation of `below_min_chars_clears_only_after_delay` at the
counterexample's trace: the `""` entered at time 400 reaches the
debounced query only at time 700, where the gate disables the search. -/
theorem below_min_chars_clears_only_after_delay_check :
    (observeAt debAfterDrop 700).debounced = ""
    ∧ searchEnabled (observeAt debAfterDrop 700).debounced minCharsDefault = false
    ∧ debAfterDrop.settles
        = (observeAt (runInputs (initDebounce "") 300 [(0, "ab")]) 300).settles := by
  have h := below_min_chars_clears_only_after_delay 300 minCharsDefault
      (observeAt (runInputs (initDebounce "") 300 [(0, "ab")]) 300) 400 ""
      (by decide) (by decide)
  exact ⟨h.2.2.2.1, h.2.2.2.2.2, h.2.1⟩

end EntitySearch
